import Mathlib

/-!
Verification of the batch PDF conversion job runner (`BatchPdfConv.py`).

The script discovers PDF files under an input root, tracks per-file outcomes
in a CSV-backed record store, and wraps each conversion in a bounded
retry/backoff loop.  We shallowly embed its data model and control flow:

* file-system paths are lists of path components (the Python code builds them
  with `os.path.join` / `os.path.relpath`, which concatenate components);
* the CSV database is a list of `FileRecord` rows, its on-disk state an
  `Option (List FileRecord)` (`none` = the file does not exist);
* the external effects of one conversion attempt (file read/encode, the OCR
  service call, the pandoc Word conversion) are supplied as oracles in an
  `OcrEnv`, since they are outside the program;
* blocking sleeps and database writes are recorded as an event trace.
-/

namespace BatchPdfConv

/-- Configuration constant `DOC_DIR = "docs_import"` (source line 18). -/
def DOC_DIR : String := "docs_import"

/-- Configuration constant `EXPORT_DIR = "docs_exports"` (source line 19). -/
def EXPORT_DIR : String := "docs_exports"

/-- Configuration constant `MAX_RETRIES = 5` (source line 22). -/
def MAX_RETRIES : Nat := 5

/-- Configuration constant `INITIAL_BACKOFF = 1` second (source line 23). -/
def INITIAL_BACKOFF : Nat := 1

/-- One row of the CSV database, with fields `FIELDNAMES = ["filename",
"status", "attempts", "error"]` (source line 40).  The `filename` is the
path of the PDF relative to `DOC_DIR`, kept as its list of components. -/
structure FileRecord where
  filename : List String
  status : String
  attempts : Nat
  error : String
deriving DecidableEq, Repr

/-- `load_processed` (source lines 50-58): load the CSV rows into a dict
keyed by `row["filename"]`; an absent file yields an empty dict.  The dict
is embedded as a lookup function; the Python loop `processed[row["filename"]]
= row` makes a later row overwrite an earlier one with the same filename. -/
def load_processed (file : Option (List FileRecord)) : List String → Option FileRecord :=
  match file with
  | none => fun _ => none
  | some rows =>
      rows.foldl (fun m row => fun k => if k = row.filename then some row else m k)
        (fun _ => none)

/-- The row-rewriting pass of `update_db` (source lines 68-74): each existing
row whose filename equals the new record's is replaced by the new record,
all other rows are kept unchanged, in order. -/
def update_rows (record : FileRecord) : List FileRecord → List FileRecord
  | [] => []
  | row :: rest =>
      (if row.filename = record.filename then record else row) :: update_rows record rest

/-- The `found` flag of `update_db` (source lines 64-72): whether some existing
row's filename equals the new record's. -/
def found_row (record : FileRecord) (rows : List FileRecord) : Bool :=
  rows.any (fun row => row.filename = record.filename)

/-- `update_db` (source lines 61-82): read the current rows (an absent file
reads as no rows), replace every row matching the record's filename, and
append the record when no row matched; the result is the full new contents
of the CSV database. -/
def update_db (record : FileRecord) (file : Option (List FileRecord)) : List FileRecord :=
  let rows := file.getD []
  let records := update_rows record rows
  if found_row record rows then records else records ++ [record]

/-- A directory tree: `node files subdirs` holds the plain files of a
directory and its named subdirectories.  It models the tree that `os.walk`
traverses under `DOC_DIR` (source line 95). -/
inductive DirTree : Type where
  | node : List String → List (String × DirTree) → DirTree

mutual

/-- Flattening of `os.walk(DOC_DIR)` as consumed by `get_pdf_files` (source
lines 95-99): for each directory, in top-down walk order, each plain file
paired with the directory's path relative to `DOC_DIR`. -/
def walkFiles (pre : List String) : DirTree → List (List String × String)
  | .node files subdirs =>
      files.map (fun f => (pre, f)) ++ walkSubdirs pre subdirs

/-- Walk the subdirectory list of a directory, in order. -/
def walkSubdirs (pre : List String) : List (String × DirTree) → List (List String × String)
  | [] => []
  | (name, t) :: rest => walkFiles (pre ++ [name]) t ++ walkSubdirs pre rest

end

/-- The filter `file.lower().endswith(".pdf")` of source line 97, computed
on the file name's characters: lowercase them and test for the suffix
`.pdf`. -/
def lowerEndsWithPdf (f : String) : Bool :=
  List.isSuffixOf (".pdf".data) ((f.data).map Char.toLower)

/-- `get_pdf_files` (source lines 85-101): every file under the tree whose
lowercased name ends in `.pdf`, as its path relative to `DOC_DIR`
(`os.path.relpath(os.path.join(root, file), DOC_DIR)` = the walk prefix
followed by the file name). -/
def get_pdf_files (tree : DirTree) : List (List String) :=
  (walkFiles [] tree).filterMap
    (fun x => if lowerEndsWithPdf x.2 then some (x.1 ++ [x.2]) else none)

/-- One page of the OCR service response: a zero-based `index` and the
extracted `markdown` text (source lines 139-141 access `page.index` and
`page.markdown`). -/
structure Page where
  index : Nat
  markdown : String
deriving DecidableEq, Repr

/-- The external effects one conversion attempt can observe:
`readEncode` is the outcome of opening, reading and base64-encoding the PDF
(source lines 107-108; `Except.error e` is the raised exception's message),
`ocrResult` the outcome of the `client.ocr.process` call (source lines
122-129), and `wordResult` the outcome of `pypandoc.convert_file` (source
line 150). -/
structure OcrEnv where
  readEncode : Except String String
  ocrResult : Except String (List Page)
  wordResult : Except String Unit
deriving Repr

/-- `encode_pdf` (source lines 104-111): return the base64 string, or log
the exception and return `none` on any read failure.  The second component
is the list of log lines emitted. -/
def encode_pdf (pdf_path : List String) (readEncode : Except String String) :
    Option String × List String :=
  match readEncode with
  | .ok b64 => (some b64, [])
  | .error e =>
      (none, ["Failed to encode " ++ (String.intercalate ("/") pdf_path) ++ ": " ++ e])

/-- Everything of `s` strictly before its last `.`; `s` itself when it has
no `.` (the `[0]` part of Python's `s.rsplit(".", 1)`). -/
def dropAfterLastDot (s : String) : String :=
  match (s.data.reverse).dropWhile (fun c => c ≠ '.') with
  | [] => s
  | _ :: rest => String.mk rest.reverse

/-- `pdf_filename.rsplit(".", 1)[0] + ext` (source lines 132 and 148) on a
component-list path: the files reaching this point end in `.pdf`
(case-insensitively), so the split always happens inside the last
component. -/
def replaceExt (p : List String) (ext : String) : List String :=
  match p.reverse with
  | [] => [ext]
  | c :: rest => (rest.reverse) ++ [dropAfterLastDot c ++ ext]

/-- The markdown text written for one page (source lines 140-141):
`"## Page {index + 1}\n\n"` followed by `markdown + "\n\n"`. -/
def pageChunk (p : Page) : String :=
  ("## Page " ++ toString (p.index + 1) ++ "\n\n") ++ (p.markdown ++ "\n\n")

/-- The full contents of the markdown output file (the write loop of source
lines 138-141, accumulated left to right). -/
def markdownContent (pages : List Page) : String :=
  pages.foldl (fun acc p => acc ++ pageChunk p) ("")

/-- `convert_pdf_to_markdown` (source lines 114-156): encode the PDF (a
falsy result raises `RuntimeError("PDF encoding failed.")`, line 119), call
the OCR service (a service exception propagates), write the markdown file,
then attempt the Word conversion, whose failure is caught and logged (lines
145-154) without affecting the outcome.  Returns the outcome — on success
the output path and the markdown contents written — together with the log
lines emitted. -/
def convert_pdf_to_markdown (env : OcrEnv) (pdf_filename : List String) :
    Except String (List String × String) × List String :=
  let full_path := DOC_DIR :: pdf_filename
  let enc := encode_pdf full_path env.readEncode
  match enc.1 with
  | none => (.error ("PDF encoding failed."), enc.2)
  | some b64 =>
      if b64 = "" then (.error ("PDF encoding failed."), enc.2)
      else
        match env.ocrResult with
        | .error e => (.error e, enc.2)
        | .ok pages =>
            let output_name := replaceExt pdf_filename (".md")
            let output_path := EXPORT_DIR :: output_name
            let content := markdownContent pages
            match env.wordResult with
            | .ok _ => (.ok (output_path, content), enc.2)
            | .error e =>
                (.ok (output_path, content),
                  enc.2 ++ ["Word conversion failed for " ++
                    (String.intercalate ("/") pdf_filename) ++ ": " ++ e])

/-- One observable event of the retry loop of `main` (source lines 180-212):
a conversion attempt (with its 1-based attempt number), a rewrite of the CSV
database with a record, the backoff sleep `time.sleep(backoff)` of line 211,
or the fixed rate-limiting sleep `time.sleep(3)` of line 196 after a
success. -/
inductive Event : Type where
  | attempt : List String → Nat → Event
  | dbWrite : FileRecord → Event
  | sleepBackoff : Nat → Event
  | sleepRate : Nat → Event
deriving DecidableEq, Repr

/-- The outcome the retry loop observes from `convert_pdf_to_markdown(pdf)`
at source line 183: success, or the raised exception's message `str(e)`. -/
def pipeline_outcome (env : OcrEnv) (pdf : List String) : Except String Unit :=
  match (convert_pdf_to_markdown env pdf).1 with
  | .ok _ => .ok ()
  | .error e => .error e

/-- The result of the retry loop for one file: the `success` flag, the final
`attempts` counter, the state of the CSV database, and the event trace. -/
structure RetryResult where
  success : Bool
  attempts : Nat
  db : Option (List FileRecord)
  events : List Event
deriving Repr

/-- The `while attempts < MAX_RETRIES and not success` loop of `main`
(source lines 176-212).  `oracle a` is the outcome of the `a`-th conversion
attempt.  The loop guard `attempts < MAX_RETRIES` is carried as the count
`remaining = MAX_RETRIES - attempts` of attempts still allowed, so that the
recursion is structural; a run starts with `attempts = 0` and
`remaining = MAX_RETRIES` (see `retry_loop`).  On success the loop records a
success row and sleeps 3 seconds; on failure it records an error row with
the exception's message and, when attempts remain, sleeps `backoff` seconds
and doubles `backoff`. -/
def retry_step (oracle : Nat → Except String Unit) (pdf : List String) :
    Nat → Nat → Nat → Option (List FileRecord) → RetryResult
  | 0, attempts, _, db => ⟨false, attempts, db, []⟩
  | remaining + 1, attempts, backoff, db =>
      let a := attempts + 1
      match oracle a with
      | .ok _ =>
          let r : FileRecord := ⟨pdf, "success", a, ""⟩
          ⟨true, a, some (update_db r db), [.attempt pdf a, .dbWrite r, .sleepRate 3]⟩
      | .error msg =>
          let r : FileRecord := ⟨pdf, "error", a, msg⟩
          let db1 := some (update_db r db)
          if a < MAX_RETRIES then
            let rest := retry_step oracle pdf remaining a (backoff * 2) db1
            ⟨rest.success, rest.attempts, rest.db,
              [.attempt pdf a, .dbWrite r, .sleepBackoff backoff] ++ rest.events⟩
          else
            ⟨false, a, db1, [.attempt pdf a, .dbWrite r]⟩

/-- The retry loop entered with `attempts = 0` and `backoff =
INITIAL_BACKOFF` (source lines 176-177). -/
def retry_loop (oracle : Nat → Except String Unit) (pdf : List String)
    (db : Option (List FileRecord)) : RetryResult :=
  retry_step oracle pdf MAX_RETRIES 0 INITIAL_BACKOFF db

/-- The work-set computation `to_do = [f for f in all_files if
processed.get(f, {}).get("status") != "success"]` (source line 166): keep a
file unless its loaded record exists and has status `success`. -/
def to_do (all_files : List (List String))
    (processed : List String → Option FileRecord) : List (List String) :=
  all_files.filter (fun f =>
    match processed f with
    | some r => decide (r.status ≠ "success")
    | none => true)

/-- The `for idx, pdf in enumerate(to_do, ...)` loop of `main` (source lines
174-215): run the retry loop on each remaining file in order, threading the
CSV database, concatenating the event traces, and counting successes
(`converted_count`, lines 173 and 185). -/
def run_files (oracles : List String → Nat → Except String Unit) :
    Option (List FileRecord) → List (List String) →
      Option (List FileRecord) × List Event × Nat
  | db, [] => (db, [], 0)
  | db, pdf :: rest =>
      let r := retry_loop (oracles pdf) pdf db
      let tail := run_files oracles r.db rest
      (tail.1, r.events ++ tail.2.1, (if r.success then 1 else 0) + tail.2.2)

/-- The body of `main` (source lines 159-220): load the processed records,
discover the PDF files, compute the work set, and drive the retry loop over
it.  `oracles pdf a` is the outcome of the `a`-th conversion attempt for
file `pdf`. -/
def run_main (tree : DirTree) (oracles : List String → Nat → Except String Unit)
    (file : Option (List FileRecord)) :
    Option (List FileRecord) × List Event × Nat :=
  let processed := load_processed file
  let all_files := get_pdf_files tree
  run_files oracles file (to_do all_files processed)

/-- The backoff sleeps of an event trace, in order. -/
def backoffSleeps (events : List Event) : List Nat :=
  events.filterMap (fun e =>
    match e with
    | .sleepBackoff n => some n
    | _ => none)

/-- The records written to the CSV database in an event trace, in order. -/
def dbWrites (events : List Event) : List FileRecord :=
  events.filterMap (fun e =>
    match e with
    | .dbWrite r => some r
    | _ => none)

/-- The attempt events of an event trace, in order. -/
def attemptEvents (events : List Event) : List (List String × Nat) :=
  events.filterMap (fun e =>
    match e with
    | .attempt f a => some (f, a)
    | _ => none)

/-! ### Helper lemmas about the record store -/

/-- The dict built by `load_processed`, applied to one key: the last row
with that filename wins. -/
def dictAt (rows : List FileRecord) (k : List String) : Option FileRecord :=
  rows.foldl (fun acc row => if k = row.filename then some row else acc) none

theorem load_processed_foldl (rows : List FileRecord)
    (m : List String → Option FileRecord) (k : List String) :
    (rows.foldl (fun m row => fun k => if k = row.filename then some row else m k) m) k
      = rows.foldl (fun acc row => if k = row.filename then some row else acc) (m k) := by
  induction rows generalizing m with
  | nil => rfl
  | cons row rest ih => simp only [List.foldl_cons, ih]

theorem load_processed_some (rows : List FileRecord) (k : List String) :
    load_processed (some rows) k = dictAt rows k := by
  simp only [load_processed, dictAt, load_processed_foldl]

theorem dictAt_append_singleton (rows : List FileRecord) (row : FileRecord)
    (k : List String) :
    dictAt (rows ++ [row]) k = if k = row.filename then some row else dictAt rows k := by
  simp [dictAt, List.foldl_append]

theorem update_rows_append (record : FileRecord) (l1 l2 : List FileRecord) :
    update_rows record (l1 ++ l2) = update_rows record l1 ++ update_rows record l2 := by
  induction l1 with
  | nil => rfl
  | cons row rest ih => simp [update_rows, ih]

theorem update_rows_of_not_found (record : FileRecord) (rows : List FileRecord)
    (h : found_row record rows = false) : update_rows record rows = rows := by
  induction rows with
  | nil => rfl
  | cons row rest ih =>
      simp only [found_row, List.any_cons, Bool.or_eq_false_iff] at h
      simp only [update_rows, if_neg (by simpa using h.1), ih (by simpa [found_row] using h.2)]

theorem map_filename_update_rows (record : FileRecord) (rows : List FileRecord) :
    (update_rows record rows).map (fun x => x.filename)
      = rows.map (fun x => x.filename) := by
  induction rows with
  | nil => rfl
  | cons row rest ih =>
      by_cases h : row.filename = record.filename
      · simp [update_rows, if_pos h, ih, h]
      · simp [update_rows, if_neg h, ih]

theorem dictAt_update_rows_found (record : FileRecord) (rows : List FileRecord)
    (h : found_row record rows = true) :
    dictAt (update_rows record rows) record.filename = some record := by
  induction rows using List.reverseRecOn with
  | nil => simp [found_row] at h
  | append_singleton rest row ih =>
      rw [update_rows_append]
      by_cases hrow : row.filename = record.filename
      · simp [update_rows, if_pos hrow, dictAt_append_singleton]
      · have hrest : found_row record rest = true := by
          cases hfr : found_row record rest with
          | true => rfl
          | false =>
              exfalso
              simp [found_row, List.any_append, List.any_cons, List.any_nil, hrow] at h
              simp [found_row] at hfr
              obtain ⟨x, hx, hxf⟩ := h
              exact hfr x hx hxf
        simp only [update_rows, if_neg hrow, dictAt_append_singleton,
          if_neg (Ne.symm hrow)]
        exact ih hrest


theorem update_db_lookup (record : FileRecord) (file : Option (List FileRecord)) :
    load_processed (some (update_db record file)) record.filename = some record := by
  rw [load_processed_some]
  cases file with
  | none => simp [update_db, update_rows, found_row, dictAt]
  | some rows =>
      simp only [update_db, Option.getD_some]
      cases hf : found_row record rows with
      | true => simpa [hf] using dictAt_update_rows_found record rows hf
      | false =>
          rw [if_neg (by simp [hf]), update_rows_of_not_found record rows hf,
            dictAt_append_singleton, if_pos rfl]

theorem dictAt_update_rows_ne (record : FileRecord) (rows : List FileRecord)
    (k : List String) (hk : k ≠ record.filename) :
    dictAt (update_rows record rows) k = dictAt rows k := by
  induction rows using List.reverseRecOn with
  | nil => rfl
  | append_singleton rest row ih =>
      rw [update_rows_append]
      by_cases hrow : row.filename = record.filename
      · simp only [update_rows, if_pos hrow, dictAt_append_singleton,
          if_neg (hrow ▸ hk), if_neg hk, ih]
      · simp only [update_rows, dictAt_append_singleton, if_neg hrow, ih]

theorem update_db_lookup_ne (record : FileRecord) (file : Option (List FileRecord))
    (k : List String) (hk : k ≠ record.filename) :
    load_processed (some (update_db record file)) k = load_processed file k := by
  rw [load_processed_some]
  cases file with
  | none => simp [update_db, update_rows, found_row, dictAt, if_neg hk, load_processed]
  | some rows =>
      rw [load_processed_some]
      simp only [update_db, Option.getD_some]
      cases hf : found_row record rows with
      | true => simpa [hf] using dictAt_update_rows_ne record rows k hk
      | false =>
          rw [if_neg (by simp [hf]), update_rows_of_not_found record rows hf,
            dictAt_append_singleton, if_neg hk]

theorem update_rows_filter_ne (record : FileRecord) (rows : List FileRecord) :
    (update_rows record rows).filter (fun x => decide (x.filename ≠ record.filename))
      = rows.filter (fun x => decide (x.filename ≠ record.filename)) := by
  simp only [ne_eq, decide_not]
  induction rows with
  | nil => rfl
  | cons row rest ih =>
      by_cases h : row.filename = record.filename
      · simp [update_rows, if_pos h, List.filter_cons, h, ih]
      · simp [update_rows, if_neg h, List.filter_cons, h, ih]

theorem found_row_iff (record : FileRecord) (rows : List FileRecord) :
    found_row record rows = true ↔ record.filename ∈ rows.map (fun x => x.filename) := by
  simp only [found_row, List.any_eq_true, List.mem_map, decide_eq_true_eq]

/-- With pairwise-distinct filenames, an upsert for a present filename is a
positional replacement: the rewritten rows are `rows.set i record` for the
index `i` of the matching row. -/
theorem update_rows_found_set (record : FileRecord) :
    ∀ rows : List FileRecord, ((rows.map (fun x => x.filename)).Nodup) →
      found_row record rows = true →
      ∃ i, ∃ h : i < rows.length, (rows.get ⟨i, h⟩).filename = record.filename ∧
        update_rows record rows = rows.set i record := by
  intro rows
  induction rows with
  | nil => intro _ h; simp [found_row] at h
  | cons row rest ih =>
      intro hnd hf
      by_cases hrow : row.filename = record.filename
      · refine ⟨0, by simp, by simpa using hrow, ?_⟩
        have hrest : found_row record rest = false := by
          cases hfr : found_row record rest with
          | false => rfl
          | true =>
              exfalso
              have hmem : record.filename ∈ rest.map (fun x => x.filename) :=
                (found_row_iff record rest).mp hfr
              have : row.filename ∉ rest.map (fun x => x.filename) :=
                (List.nodup_cons.mp (by simpa using hnd)).1
              exact this (hrow ▸ hmem)
        simp [update_rows, if_pos hrow, update_rows_of_not_found record rest hrest]
      · have hfr : found_row record rest = true := by
          cases hfr : found_row record rest with
          | true => rfl
          | false =>
              exfalso
              simp [found_row, List.any_cons, hrow, hfr] at hf
              simp [found_row] at hfr
              obtain ⟨x, hx, hxf⟩ := hf
              exact hfr x hx hxf
        obtain ⟨i, h, hget, heq⟩ := ih (List.nodup_cons.mp (by simpa using hnd)).2 hfr
        exact ⟨i + 1, by simpa using h, by simpa using hget,
          by simp [update_rows, if_neg hrow, heq]⟩

/-- The backoff sleeps, database writes and attempt numbers produced by
`retry_step` are bounded by the attempts still allowed. -/
theorem retry_step_bounds (oracle : Nat → Except String Unit) (pdf : List String) :
    ∀ (remaining attempts backoff : Nat) (db : Option (List FileRecord)),
      (retry_step oracle pdf remaining attempts backoff db).attempts
          ≤ attempts + remaining ∧
        ∀ r ∈ dbWrites (retry_step oracle pdf remaining attempts backoff db).events,
          attempts + 1 ≤ r.attempts ∧ r.attempts ≤ attempts + remaining := by
  intro remaining
  induction remaining with
  | zero =>
      intro attempts backoff db
      exact ⟨Nat.le_refl _, by simp [retry_step, dbWrites]⟩
  | succ rem ih =>
      intro attempts backoff db
      cases horacle : oracle (attempts + 1) with
      | ok u =>
          refine ⟨?_, ?_⟩
          · simp only [retry_step, horacle]
            omega
          · intro r hr
            simp only [retry_step, horacle, dbWrites, List.filterMap] at hr
            simp at hr
            subst hr
            dsimp only
            omega
      | error msg =>
          by_cases hlt : attempts + 1 < MAX_RETRIES
          · obtain ⟨iha, ihw⟩ :=
              ih (attempts + 1) (backoff * 2)
                (some (update_db ⟨pdf, "error", attempts + 1, msg⟩ db))
            refine ⟨?_, ?_⟩
            · simp only [retry_step, horacle, if_pos hlt]
              omega
            · intro r hr
              simp only [retry_step, horacle, if_pos hlt, dbWrites,
                List.filterMap_append] at hr
              simp only [dbWrites] at ihw
              rcases List.mem_append.mp hr with hr | hr
              · simp at hr
                subst hr
                dsimp only
                omega
              · have := ihw r hr
                omega
          · refine ⟨?_, ?_⟩
            · simp only [retry_step, horacle, if_neg hlt]
              omega
            · intro r hr
              simp only [retry_step, horacle, if_neg hlt, dbWrites] at hr
              simp at hr
              subst hr
              dsimp only
              omega

/-! ### Claim theorems -/

/-- Claim C8: `load_processed` on an absent backing file returns the empty
mapping, and for every record `r` and prior store state, `load_processed`
performed after `update_db r` maps `r.filename` to `r`. -/
theorem C8_load_after_upsert :
    (∀ k, load_processed none k = none) ∧
    ∀ (r : FileRecord) (file : Option (List FileRecord)),
      load_processed (some (update_db r file)) r.filename = some r :=
  ⟨fun _ => rfl, fun r file => update_db_lookup r file⟩

/-- Claim C5: if the backing store has at most one row per filename, an
upsert keeps that invariant; an upsert for a present filename replaces that
row's fields in place, at its original position, and an upsert for an
absent filename appends the new row at the end. -/
theorem C5_upsert_invariant (record : FileRecord) (rows : List FileRecord)
    (hnd : (rows.map (fun x => x.filename)).Nodup) :
    ((update_db record (some rows)).map (fun x => x.filename)).Nodup ∧
    (found_row record rows = true →
      ∃ i, ∃ h : i < rows.length, (rows.get ⟨i, h⟩).filename = record.filename ∧
        update_db record (some rows) = rows.set i record) ∧
    (found_row record rows = false →
      update_db record (some rows) = rows ++ [record]) := by
  refine ⟨?_, ?_, ?_⟩
  · cases hf : found_row record rows with
    | true =>
        simpa [update_db, hf, map_filename_update_rows] using hnd
    | false =>
        have hmem : record.filename ∉ rows.map (fun x => x.filename) := by
          intro hm
          rw [(found_row_iff record rows).mpr hm] at hf
          exact Bool.noConfusion hf
        simp [update_db, hf, update_rows_of_not_found record rows hf,
          List.nodup_append, hnd, hmem]
  · intro hf
    obtain ⟨i, h, hget, heq⟩ := update_rows_found_set record rows hnd hf
    exact ⟨i, h, hget, by simp [update_db, hf, heq]⟩
  · intro hf
    simp [update_db, hf, update_rows_of_not_found record rows hf]

/-- Concrete store rows for the store-claim witnesses. -/
def exRows : List FileRecord :=
  [⟨["a.pdf"], "error", 1, "x"⟩, ⟨["b.pdf"], "success", 1, ""⟩]

/-- Concrete upsert record for the store-claim witnesses. -/
def exRec : FileRecord := ⟨["a.pdf"], "error", 2, "y"⟩

/-- Witness for C5 at a concrete store and record. -/
theorem C5_witness :
    ((exRows.map (fun x => x.filename)).Nodup) ∧
    (((update_db exRec (some exRows)).map (fun x => x.filename)).Nodup ∧
    (found_row exRec exRows = true →
      ∃ i, ∃ h : i < exRows.length,
        (exRows.get ⟨i, h⟩).filename = exRec.filename ∧
        update_db exRec (some exRows) = exRows.set i exRec) ∧
    (found_row exRec exRows = false →
      update_db exRec (some exRows) = exRows ++ [exRec])) :=
  ⟨by decide, C5_upsert_invariant exRec exRows (by decide)⟩

/-- Claim C6: an upsert for filename X against a store with pairwise-distinct
filenames leaves every row whose filename is not X unchanged, with the same
values in the same relative order. -/
theorem C6_upsert_frame (record : FileRecord) (rows : List FileRecord)
    (hnd : (rows.map (fun x => x.filename)).Nodup) :
    (update_db record (some rows)).filter
        (fun x => decide (x.filename ≠ record.filename))
      = rows.filter (fun x => decide (x.filename ≠ record.filename)) := by
  cases hf : found_row record rows with
  | true =>
      have h1 := update_rows_filter_ne record rows
      simp only [ne_eq, decide_not] at h1 ⊢
      simp [update_db, hf, h1]
  | false =>
      simp [update_db, hf, update_rows_of_not_found record rows hf,
        List.filter_append]

/-- Witness for C6 at a concrete store and record. -/
theorem C6_witness :
    ((exRows.map (fun x => x.filename)).Nodup) ∧
    (update_db exRec (some exRows)).filter
        (fun x => decide (x.filename ≠ exRec.filename))
      = exRows.filter (fun x => decide (x.filename ≠ exRec.filename)) :=
  ⟨by decide, C6_upsert_frame exRec exRows (by decide)⟩

/-- Claim C2: if the loaded store has a `success` record for every
discovered file, the computed work set is empty and the run performs no
conversion attempt (its event trace is empty). -/
theorem C2_idempotent_resume (tree : DirTree) (file : Option (List FileRecord))
    (oracles : List String → Nat → Except String Unit)
    (h : ∀ f ∈ get_pdf_files tree, ∃ rec, load_processed file f = some rec ∧
        rec.status = "success") :
    to_do (get_pdf_files tree) (load_processed file) = [] ∧
    (run_main tree oracles file).2.1 = [] := by
  have htd : to_do (get_pdf_files tree) (load_processed file) = [] := by
    rw [to_do, List.filter_eq_nil_iff]
    intro f hf
    obtain ⟨rec, hrec, hst⟩ := h f hf
    simp [hrec, hst]
  exact ⟨htd, by simp [run_main, htd, run_files]⟩

/-- Concrete input tree for the C2 witness: a single file `a.pdf`. -/
def exTree2 : DirTree := .node ["a.pdf"] []

/-- Concrete store for the C2 witness: `a.pdf` already succeeded. -/
def exFile2 : Option (List FileRecord) := some [⟨["a.pdf"], "success", 1, ""⟩]

/-- Concrete per-file attempt oracles for the C2 witness. -/
def exOraclesOk : List String → Nat → Except String Unit := fun _ _ => .ok ()

/-- Witness for C2 at a concrete tree and store. -/
theorem C2_witness :
    (∀ f ∈ get_pdf_files exTree2, ∃ rec, load_processed exFile2 f = some rec ∧
        rec.status = "success") ∧
    (to_do (get_pdf_files exTree2) (load_processed exFile2) = [] ∧
      (run_main exTree2 exOraclesOk exFile2).2.1 = []) := by
  have h : ∀ f ∈ get_pdf_files exTree2, ∃ rec, load_processed exFile2 f = some rec ∧
      rec.status = "success" := by
    intro f hf
    have hg : get_pdf_files exTree2 = [["a.pdf"]] := by decide
    rw [hg] at hf
    have hfa : f = ["a.pdf"] := by simpa using hf
    subst hfa
    exact ⟨⟨["a.pdf"], "success", 1, ""⟩, rfl, rfl⟩
  exact ⟨h, C2_idempotent_resume exTree2 exFile2 exOraclesOk h⟩

/-- Claim C3: for a file whose conversion fails on every attempt, the
inter-attempt backoff delays are exactly [1, 2, 4, 8] time units — one
after each of the first four failed attempts and none after the fifth. -/
theorem C3_backoff_sequence (oracle : Nat → Except String Unit) (pdf : List String)
    (db : Option (List FileRecord))
    (h : ∀ n, ∃ m, oracle n = Except.error m) :
    backoffSleeps (retry_loop oracle pdf db).events = [1, 2, 4, 8] := by
  obtain ⟨m1, h1⟩ := h 1
  obtain ⟨m2, h2⟩ := h 2
  obtain ⟨m3, h3⟩ := h 3
  obtain ⟨m4, h4⟩ := h 4
  obtain ⟨m5, h5⟩ := h 5
  simp [retry_loop, retry_step, MAX_RETRIES, INITIAL_BACKOFF, h1, h2, h3, h4, h5,
    backoffSleeps]

/-- Concrete always-failing attempt oracle for witnesses. -/
def exFailOracle : Nat → Except String Unit := fun _ => .error ("service unavailable")

/-- Witness for C3 at a concrete oracle, file and store. -/
theorem C3_witness :
    backoffSleeps (retry_loop exFailOracle ["b.pdf"] none).events = [1, 2, 4, 8] :=
  C3_backoff_sequence exFailOracle ["b.pdf"] none
    (fun _ => ⟨"service unavailable", rfl⟩)

/-- Claim C4: the retry loop performs at most 5 attempts; every record it
writes carries an attempts count between 1 and 5; and a file failing on all
attempts ends with a stored record of status `error` and attempts = 5. -/
theorem C4_attempt_bound (oracle : Nat → Except String Unit) (pdf : List String)
    (db : Option (List FileRecord)) :
    (retry_loop oracle pdf db).attempts ≤ 5 ∧
    (∀ r ∈ dbWrites (retry_loop oracle pdf db).events,
      1 ≤ r.attempts ∧ r.attempts ≤ 5) ∧
    ((∀ n, ∃ m, oracle n = Except.error m) →
      ∃ m, load_processed (retry_loop oracle pdf db).db pdf
        = some ⟨pdf, "error", 5, m⟩) := by
  obtain ⟨ha, hw⟩ := retry_step_bounds oracle pdf MAX_RETRIES 0 INITIAL_BACKOFF db
  refine ⟨by simpa [retry_loop, MAX_RETRIES] using ha,
    by simpa [retry_loop, MAX_RETRIES] using hw, ?_⟩
  intro h
  obtain ⟨m1, h1⟩ := h 1
  obtain ⟨m2, h2⟩ := h 2
  obtain ⟨m3, h3⟩ := h 3
  obtain ⟨m4, h4⟩ := h 4
  obtain ⟨m5, h5⟩ := h 5
  refine ⟨m5, ?_⟩
  simp only [retry_loop, retry_step, MAX_RETRIES, INITIAL_BACKOFF,
    h1, h2, h3, h4, h5]
  norm_num
  exact update_db_lookup ⟨pdf, "error", 5, m5⟩ _

/-- Witness for C4: the all-fail branch at a concrete oracle. -/
theorem C4_witness :
    ∃ m, load_processed (retry_loop exFailOracle ["b.pdf"] none).db ["b.pdf"]
      = some ⟨["b.pdf"], "error", 5, m⟩ :=
  (C4_attempt_bound exFailOracle ["b.pdf"] none).2.2
    (fun _ => ⟨"service unavailable", rfl⟩)

/-- Claim C7: if the primary (markdown) write succeeds but the best-effort
Word conversion fails, the attempt still succeeds: the exception is caught
and only logged, the retry loop consumes a single attempt, and the stored
record has status `success`. -/
theorem C7_secondary_failure_still_success (env : OcrEnv) (pdf : List String)
    (db : Option (List FileRecord)) (b : String) (pages : List Page) (e : String)
    (hb : env.readEncode = Except.ok b) (hb0 : b ≠ "")
    (hocr : env.ocrResult = Except.ok pages) (hw : env.wordResult = Except.error e) :
    (convert_pdf_to_markdown env pdf).1
        = Except.ok (EXPORT_DIR :: replaceExt pdf (".md"), markdownContent pages) ∧
    (convert_pdf_to_markdown env pdf).2
        = ["Word conversion failed for " ++ (String.intercalate ("/") pdf) ++ ": " ++ e] ∧
    (retry_loop (fun _ => pipeline_outcome env pdf) pdf db).success = true ∧
    (retry_loop (fun _ => pipeline_outcome env pdf) pdf db).attempts = 1 ∧
    load_processed (retry_loop (fun _ => pipeline_outcome env pdf) pdf db).db pdf
        = some ⟨pdf, "success", 1, ""⟩ := by
  have hconv : convert_pdf_to_markdown env pdf
      = (Except.ok (EXPORT_DIR :: replaceExt pdf (".md"), markdownContent pages),
        ["Word conversion failed for " ++ (String.intercalate ("/") pdf) ++ ": " ++ e]) := by
    simp [convert_pdf_to_markdown, encode_pdf, hb, hb0, hocr, hw]
  have hpo : pipeline_outcome env pdf = Except.ok () := by
    simp [pipeline_outcome, hconv]
  refine ⟨by simp [hconv], by simp [hconv], ?_, ?_, ?_⟩
  · simp [retry_loop, retry_step, MAX_RETRIES, INITIAL_BACKOFF, hpo]
  · simp [retry_loop, retry_step, MAX_RETRIES, INITIAL_BACKOFF, hpo]
  · simp only [retry_loop, retry_step, MAX_RETRIES, INITIAL_BACKOFF, hpo]
    exact update_db_lookup ⟨pdf, "success", 1, ""⟩ db

/-- Concrete environment for the C7 witness: encode and OCR succeed, the
Word conversion fails. -/
def exEnvWord : OcrEnv :=
  ⟨Except.ok "QUJD", Except.ok [⟨0, "hello"⟩], Except.error "pandoc missing"⟩

/-- Witness for C7 at a concrete environment. -/
theorem C7_witness :
    (convert_pdf_to_markdown exEnvWord ["a.pdf"]).1
        = Except.ok (EXPORT_DIR :: replaceExt ["a.pdf"] (".md"),
            markdownContent [⟨0, "hello"⟩]) ∧
    (convert_pdf_to_markdown exEnvWord ["a.pdf"]).2
        = ["Word conversion failed for " ++ (String.intercalate ("/") ["a.pdf"])
            ++ ": " ++ "pandoc missing"] ∧
    (retry_loop (fun _ => pipeline_outcome exEnvWord ["a.pdf"]) ["a.pdf"] none).success
        = true ∧
    (retry_loop (fun _ => pipeline_outcome exEnvWord ["a.pdf"]) ["a.pdf"] none).attempts
        = 1 ∧
    load_processed
        (retry_loop (fun _ => pipeline_outcome exEnvWord ["a.pdf"]) ["a.pdf"] none).db
        ["a.pdf"]
        = some ⟨["a.pdf"], "success", 1, ""⟩ :=
  C7_secondary_failure_still_success exEnvWord ["a.pdf"] none "QUJD" [⟨0, "hello"⟩]
    "pandoc missing" rfl (by decide) rfl rfl

/-- `markdownContent` is the concatenation, in response order, of each
page's chunk. -/
theorem markdownContent_eq_join (pages : List Page) :
    markdownContent pages = String.join (pages.map pageChunk) := by
  simp [markdownContent, String.join, List.foldl_map]

/-- Claim C9: a successful conversion writes, for each page in response
order, the heading `## Page N` (N = 0-based index + 1), a blank line, the
page text and a blank line; a one-page response with text `hello` yields
exactly `## Page 1\n\nhello\n\n`. -/
theorem C9_output_content (env : OcrEnv) (pdf : List String) (b : String)
    (pages : List Page) (hb : env.readEncode = Except.ok b) (hb0 : b ≠ "")
    (hocr : env.ocrResult = Except.ok pages) :
    (convert_pdf_to_markdown env pdf).1
        = Except.ok (EXPORT_DIR :: replaceExt pdf (".md"), markdownContent pages) ∧
    markdownContent pages = String.join (pages.map pageChunk) ∧
    markdownContent [⟨0, "hello"⟩] = "## Page 1\n\nhello\n\n" := by
  refine ⟨?_, markdownContent_eq_join pages, by decide⟩
  cases hword : env.wordResult with
  | ok u => simp [convert_pdf_to_markdown, encode_pdf, hb, hb0, hocr, hword]
  | error e => simp [convert_pdf_to_markdown, encode_pdf, hb, hb0, hocr, hword]

/-- Concrete environment for the C9 witness: one page with text `hello`. -/
def exEnvHello : OcrEnv :=
  ⟨Except.ok "QUJD", Except.ok [⟨0, "hello"⟩], Except.ok ()⟩

/-- Witness for C9 at a concrete environment. -/
theorem C9_witness :
    (convert_pdf_to_markdown exEnvHello ["a.pdf"]).1
        = Except.ok (EXPORT_DIR :: replaceExt ["a.pdf"] (".md"),
            markdownContent [⟨0, "hello"⟩]) ∧
    markdownContent [⟨0, "hello"⟩] = String.join ([⟨0, "hello"⟩].map pageChunk) ∧
    markdownContent [⟨0, "hello"⟩] = "## Page 1\n\nhello\n\n" :=
  C9_output_content exEnvHello ["a.pdf"] "QUJD" [⟨0, "hello"⟩] rfl (by decide) rfl

/-- Claim C10: a read/encode failure is swallowed inside `encode_pdf` (which
returns `none` and logs the underlying cause); the attempt then fails with
exactly `PDF encoding failed.`, and every record the retry loop stores for
such a failure carries that fixed string — never the underlying cause. -/
theorem C10_encoding_failure_message (env : OcrEnv) (pdf : List String)
    (db : Option (List FileRecord)) (e : String)
    (henc : env.readEncode = Except.error e) :
    (convert_pdf_to_markdown env pdf).1 = Except.error ("PDF encoding failed.") ∧
    (convert_pdf_to_markdown env pdf).2
        = ["Failed to encode " ++ (String.intercalate ("/") (DOC_DIR :: pdf))
            ++ ": " ++ e] ∧
    (∀ r ∈ dbWrites (retry_loop (fun _ => pipeline_outcome env pdf) pdf db).events,
      r.error = "PDF encoding failed.") ∧
    load_processed (retry_loop (fun _ => pipeline_outcome env pdf) pdf db).db pdf
        = some ⟨pdf, "error", 5, "PDF encoding failed."⟩ := by
  have hconv : convert_pdf_to_markdown env pdf
      = (Except.error ("PDF encoding failed."),
        ["Failed to encode " ++ (String.intercalate ("/") (DOC_DIR :: pdf))
          ++ ": " ++ e]) := by
    simp [convert_pdf_to_markdown, encode_pdf, henc]
  have hpo : pipeline_outcome env pdf = Except.error ("PDF encoding failed.") := by
    simp [pipeline_outcome, hconv]
  refine ⟨by simp [hconv], by simp [hconv], ?_, ?_⟩
  · intro r hr
    simp only [retry_loop, retry_step, MAX_RETRIES, INITIAL_BACKOFF, hpo,
      dbWrites] at hr
    simp at hr
    rcases hr with rfl | rfl | rfl | rfl | rfl <;> rfl
  · simp only [retry_loop, retry_step, MAX_RETRIES, INITIAL_BACKOFF, hpo]
    norm_num
    exact update_db_lookup ⟨pdf, "error", 5, "PDF encoding failed."⟩ _

/-- Concrete environment for the C10 witness: reading the PDF fails. -/
def exEnvEncFail : OcrEnv :=
  ⟨Except.error "No such file or directory", Except.ok [], Except.ok ()⟩

/-- Witness for C10 at a concrete environment. -/
theorem C10_witness :
    (convert_pdf_to_markdown exEnvEncFail ["a.pdf"]).1
        = Except.error ("PDF encoding failed.") ∧
    (convert_pdf_to_markdown exEnvEncFail ["a.pdf"]).2
        = ["Failed to encode " ++ (String.intercalate ("/") (DOC_DIR :: ["a.pdf"]))
            ++ ": " ++ "No such file or directory"] ∧
    (∀ r ∈ dbWrites (retry_loop (fun _ => pipeline_outcome exEnvEncFail ["a.pdf"])
        ["a.pdf"] none).events, r.error = "PDF encoding failed.") ∧
    load_processed (retry_loop (fun _ => pipeline_outcome exEnvEncFail ["a.pdf"])
        ["a.pdf"] none).db ["a.pdf"]
        = some ⟨["a.pdf"], "error", 5, "PDF encoding failed."⟩ :=
  C10_encoding_failure_message exEnvEncFail ["a.pdf"] none
    "No such file or directory" rfl

/-- Input tree with two identically named files in different
subdirectories: `sub1/a.pdf` and `sub2/a.pdf`. -/
def exTree1 : DirTree :=
  .node [] [("sub1", .node ["a.pdf"] []), ("sub2", .node ["a.pdf"] [])]

/-- Claim C1 is false on the code: two files with the same base name in
different subdirectories are keyed by their full relative paths, which
differ, so they do NOT alias to one and the same record — upserting records
for both leaves two distinct rows in the store. -/
theorem C1_counterexample :
    get_pdf_files exTree1 = [["sub1", "a.pdf"], ["sub2", "a.pdf"]] ∧
    (["sub1", "a.pdf"] : List String) ≠ ["sub2", "a.pdf"] ∧
    update_db ⟨["sub2", "a.pdf"], "success", 1, ""⟩
        (some (update_db ⟨["sub1", "a.pdf"], "success", 1, ""⟩ none))
      = [⟨["sub1", "a.pdf"], "success", 1, ""⟩,
          ⟨["sub2", "a.pdf"], "success", 1, ""⟩] := by
  decide

/-- Claim C1 as amended: Discovery keys files by their full `DOC_DIR`-relative
path, so two files sharing a base name but lying under different directory
prefixes receive distinct keys, and upserting a record for each leaves the
store mapping each key to its own record. -/
theorem C1_amended_distinct_records (tree : DirTree) (pre1 pre2 : List String)
    (f : String) (h1 : (pre1, f) ∈ walkFiles [] tree)
    (h2 : (pre2, f) ∈ walkFiles [] tree)
    (hpdf : lowerEndsWithPdf f = true) (hne : pre1 ≠ pre2) :
    (pre1 ++ [f]) ∈ get_pdf_files tree ∧
    (pre2 ++ [f]) ∈ get_pdf_files tree ∧
    (pre1 ++ [f]) ≠ (pre2 ++ [f]) ∧
    ∀ (r1 r2 : FileRecord) (file : Option (List FileRecord)),
      r1.filename = pre1 ++ [f] → r2.filename = pre2 ++ [f] →
      load_processed (some (update_db r2 (some (update_db r1 file)))) (pre1 ++ [f])
          = some r1 ∧
      load_processed (some (update_db r2 (some (update_db r1 file)))) (pre2 ++ [f])
          = some r2 := by
  have hkey : (pre1 ++ [f]) ≠ (pre2 ++ [f]) := by
    intro hc
    exact hne (List.append_inj' hc rfl).1
  refine ⟨?_, ?_, hkey, ?_⟩
  · exact List.mem_filterMap.mpr ⟨(pre1, f), h1, by simp [hpdf]⟩
  · exact List.mem_filterMap.mpr ⟨(pre2, f), h2, by simp [hpdf]⟩
  · intro r1 r2 file hr1 hr2
    constructor
    · rw [update_db_lookup_ne r2 _ _ (by rw [hr2]; exact hkey)]
      have h := update_db_lookup r1 file
      rwa [hr1] at h
    · have h := update_db_lookup r2 (some (update_db r1 file))
      rwa [hr2] at h

/-- Witness for the amended C1 at the concrete two-subdirectory tree. -/
theorem C1_witness :
    (((["sub1"] : List String), "a.pdf") ∈ walkFiles [] exTree1 ∧
      ((["sub2"] : List String), "a.pdf") ∈ walkFiles [] exTree1 ∧
      lowerEndsWithPdf "a.pdf" = true ∧
      (["sub1"] : List String) ≠ ["sub2"]) ∧
    ((["sub1", "a.pdf"] : List String) ∈ get_pdf_files exTree1 ∧
    (["sub2", "a.pdf"] : List String) ∈ get_pdf_files exTree1 ∧
    (["sub1"] ++ ["a.pdf"] : List String) ≠ (["sub2"] ++ ["a.pdf"]) ∧
    ∀ (r1 r2 : FileRecord) (file : Option (List FileRecord)),
      r1.filename = ["sub1"] ++ ["a.pdf"] → r2.filename = ["sub2"] ++ ["a.pdf"] →
      load_processed (some (update_db r2 (some (update_db r1 file))))
          (["sub1"] ++ ["a.pdf"]) = some r1 ∧
      load_processed (some (update_db r2 (some (update_db r1 file))))
          (["sub2"] ++ ["a.pdf"]) = some r2) :=
  ⟨⟨by decide, by decide, by decide, by decide⟩,
    C1_amended_distinct_records exTree1 ["sub1"] ["sub2"] "a.pdf"
      (by decide) (by decide) (by decide) (by decide)⟩

end BatchPdfConv
